import Mathlib

/-!
Verification of the swift-study-guide utilities: the navigation-tree
flattener (two variants, in `find_pages.py` and `generate_status.py`),
the page-completeness classifier (`analyze_page`), the slice selector
(`find_pages.py` top level) and the status reporter (`generate_status.main`).

The Python values coming out of `yaml.safe_load` are modelled by the
inductive type `Nav`: a node is a list, a dict (insertion-ordered pairs of
a string key and a value), a string leaf, or anything else (numbers,
booleans, None, ...), which both scripts ignore.

File contents are modelled as `List Char`; the file system an
`analyze_page` call sees is an explicit structure of two functions
(existence test, fallible read).  `int(total * 0.11)` and
`int(total * 0.15)` are modelled as the exact floors `total * 11 / 100`
and `total * 15 / 100` in `Nat`, which agree with the Python float
computation for every realistic page count.
-/

/-- Python's `s.endswith(suffix)`: the characters of `suffix` are a suffix
of the characters of `s`. -/
def pyEndsWith (s suffix : String) : Bool :=
  suffix.data.isSuffixOf s.data

/-- A Python value as traversed by `get_pages`: a list, a dict
(insertion order preserved), a string, or any other value. -/
inductive Nav where
  | seq : List Nav → Nav
  | group : List (String × Nav) → Nav
  | leaf : String → Nav
  | other : Nav

mutual

/-- `get_pages` from `find_pages.py` (Variant A): recurse uniformly into
lists and into every dict value; keep string leaves ending in `.md`. -/
def get_pagesA : Nav → List String
  | .seq items => get_pagesA_seq items
  | .group kvs => get_pagesA_grp kvs
  | .leaf s => if pyEndsWith s ".md" then [s] else []
  | .other => []

/-- the `for item in nav: pages.extend(get_pages(item))` loop of Variant A -/
def get_pagesA_seq : List Nav → List String
  | [] => []
  | n :: ns => get_pagesA n ++ get_pagesA_seq ns

/-- the `for key, value in nav.items(): pages.extend(get_pages(value))`
loop of Variant A -/
def get_pagesA_grp : List (String × Nav) → List String
  | [] => []
  | kv :: rest => get_pagesA kv.2 ++ get_pagesA_grp rest

end

mutual

/-- `get_pages` from `generate_status.py` (Variant B): in a dict, a value
that is directly a string is tested for the `.md` suffix at once; only a
non-string value is recursed into. -/
def get_pagesB : Nav → List String
  | .seq items => get_pagesB_seq items
  | .group kvs => get_pagesB_grp kvs
  | .leaf s => if pyEndsWith s ".md" then [s] else []
  | .other => []

/-- the list loop of Variant B -/
def get_pagesB_seq : List Nav → List String
  | [] => []
  | n :: ns => get_pagesB n ++ get_pagesB_seq ns

/-- the dict loop of Variant B: `if isinstance(value, str): ... else: recurse`
(the three non-string constructors are spelled out so the recursion is
visibly decreasing; each of them just recurses, as the Python `else` does) -/
def get_pagesB_grp : List (String × Nav) → List String
  | [] => []
  | (_, .leaf s) :: rest => (if pyEndsWith s ".md" then [s] else []) ++ get_pagesB_grp rest
  | (_, .seq items) :: rest => get_pagesB (.seq items) ++ get_pagesB_grp rest
  | (_, .group kvs) :: rest => get_pagesB (.group kvs) ++ get_pagesB_grp rest
  | (_, .other) :: rest => get_pagesB .other ++ get_pagesB_grp rest

end

mutual

/-- All string leaves of a node, collected in pre-order, left to right
(no `.md` filtering).  Used to state the leaf-filter and order claims. -/
def navLeaves : Nav → List String
  | .seq items => navLeaves_seq items
  | .group kvs => navLeaves_grp kvs
  | .leaf s => [s]
  | .other => []

/-- pre-order leaves of a list of nodes -/
def navLeaves_seq : List Nav → List String
  | [] => []
  | n :: ns => navLeaves n ++ navLeaves_seq ns

/-- pre-order leaves of the values of a dict -/
def navLeaves_grp : List (String × Nav) → List String
  | [] => []
  | kv :: rest => navLeaves kv.2 ++ navLeaves_grp rest

end

/-- a `\w` word character, as matched by `re.findall(r'\w+', content)`
(ASCII model: letters, digits, underscore) -/
def isWordChar (c : Char) : Bool := c.isAlphanum || c == '_'

/-- counts the maximal runs of word characters in the remaining text;
`inWord` records whether the previous character was a word character -/
def countWordRuns : Bool → List Char → Nat
  | _, [] => 0
  | inWord, c :: cs =>
    if isWordChar c then (if inWord then 0 else 1) + countWordRuns true cs
    else countWordRuns false cs

/-- `word_count = len(re.findall(r'\w+', content))` -/
def word_count (content : List Char) : Nat := countWordRuns false content

/-- the three-backquote fenced-code marker -/
def codeMarker : List Char := "```".toList

/-- whether `pat` occurs as a contiguous substring of the text -/
def hasSubstr (pat : List Char) : List Char → Bool
  | [] => pat.isPrefixOf ([] : List Char)
  | c :: cs => pat.isPrefixOf (c :: cs) || hasSubstr pat cs

/-- `has_code = '```' in content` -/
def has_code (content : List Char) : Bool := hasSubstr codeMarker content

/-- the positions where `re.MULTILINE`'s `^` anchors: start of text and
right after every newline; so the text splits into lines at `'\n'` -/
def splitLines : List Char → List (List Char)
  | [] => [[]]
  | c :: cs =>
    if c = '\n' then [] :: splitLines cs
    else
      match splitLines cs with
      | [] => [[c]]
      | l :: ls => (c :: l) :: ls

/-- a match of `^#{2,4} ` anchored at the true line start: the line begins
with exactly 2, 3 or 4 `#` characters followed by one space -/
def headerStart (line : List Char) : Bool :=
  ("## ".toList).isPrefixOf line || ("### ".toList).isPrefixOf line ||
    ("#### ".toList).isPrefixOf line

/-- `len(re.findall(r'^#{2,4} ', content, re.MULTILINE))` -/
def header_count (content : List Char) : Nat :=
  ((splitLines content).filter headerStart).length

/-- `has_structure = len(headers) >= 2` -/
def has_structure (content : List Char) : Bool := header_count content ≥ 2

/-- the `is_completed` verdict of `analyze_page`, as a function of the text -/
def is_completed (content : List Char) : Bool :=
  (word_count content > 100 && (has_code content || has_structure content)) ||
    word_count content > 300

/-- the file system as `analyze_page` sees it: `os.path.exists`, and a
full-text read that may fail (decode error, permission, ...) with an
error text -/
structure FileSys where
  pathExists : String → Bool
  readFile : String → Except String (List Char)

/-- `analyze_page` of `generate_status.py`: the boolean verdict plus the
diagnostics it prints.  A missing file returns `False` silently; an
exception during read is caught, printing `Error reading {filepath}: {e}`
and returning `False`; otherwise the heuristic on the text decides. -/
def analyze_page (fs : FileSys) (filepath : String) : Bool × List String :=
  if !fs.pathExists filepath then (false, [])
  else
    match fs.readFile filepath with
    | .error e => (false, ["Error reading " ++ filepath ++ ": " ++ e])
    | .ok content => (is_completed content, [])

/-- one element of the `status_db` array -/
structure PageRecord where
  id : Nat
  path : String
  completed : Bool
  status : String

/-- `os.path.join('docs', page_path)` for the relative page paths at hand -/
def joinDocs (p : String) : String := "docs/" ++ p

/-- the `for i, page_path in enumerate(all_pages)` loop of
`generate_status.main`, entered with next index `i` -/
def build_status (fs : FileSys) : Nat → List String → List PageRecord
  | _, [] => []
  | i, p :: rest =>
    let c := (analyze_page fs (joinDocs p)).1
    { id := i, path := p, completed := c,
      status := if c then "completed" else "pending" } :: build_status fs (i + 1) rest

/-- outcome of `generate_status.main`: the records written to
`pages_status.json` (or `none` when nothing is written) and the summary or
failure line printed.  The configuration load (`yaml.safe_load` plus the
`config['nav']` lookup) is the input, already resolved to a `Nav` or to an
error text; per-page diagnostics are modelled inside `analyze_page`. -/
def statusMain (cfg : Except String Nav) (fs : FileSys) :
    Option (List PageRecord) × List String :=
  match cfg with
  | .error e => (none, ["Failed to generate status: " ++ e])
  | .ok nav =>
    let db := build_status fs 0 (get_pagesB nav)
    (some db, ["Successfully generated status for " ++ toString db.length ++ " pages."])

/-- `start = int(total * 0.11)`, modelled as the exact floor (the float
computation agrees with it for every realistic page count) -/
def sliceStart (total : Nat) : Nat := total * 11 / 100

/-- `end = int(total * 0.15)`, modelled as the exact floor -/
def sliceEnd (total : Nat) : Nat := total * 15 / 100

/-- `f.write(f"docs/{all_pages[i]}\n")` for each index in `idxs`; `none`
models the uncaught `IndexError` on an out-of-range index (the script has
no top-level guard) -/
def emitLines (pages : List String) : List Nat → Option (List String)
  | [] => some []
  | i :: rest =>
    match pages[i]? with
    | none => none
    | some p => (emitLines pages rest).map (fun ls => ("docs/" ++ p ++ "\n") :: ls)

/-- the top level of `find_pages.py` after flattening: compute `start` and
`end` and write one line per index in `range(start, end + 1)` -/
def find_pages_slice (all_pages : List String) : Option (List String) :=
  let total := all_pages.length
  emitLines all_pages
    (List.range' (sliceStart total) (sliceEnd total + 1 - sliceStart total))

/-- `n` one-letter words separated by single spaces (a text with exactly
`n` word tokens and no code marker or header) -/
def mkWords : Nat → List Char
  | 0 => []
  | 1 => ['w']
  | n + 2 => 'w' :: ' ' :: mkWords (n + 1)

/-- a file system where every path exists and every read yields `content` -/
def mkFS (content : List Char) : FileSys :=
  { pathExists := fun _ => true, readFile := fun _ => Except.ok content }

/-- a file system where no path exists -/
def missingFS : FileSys :=
  { pathExists := fun _ => false, readFile := fun _ => Except.error "unused" }

/-- a file system where every path exists but every read raises -/
def badReadFS : FileSys :=
  { pathExists := fun _ => true, readFile := fun _ => Except.error "boom" }

mutual

/-- the two flatten variants agree on every node (shared helper) -/
theorem pagesA_eq_pagesB : (n : Nav) → get_pagesA n = get_pagesB n
  | .seq items => by simp [get_pagesA, get_pagesB, pagesA_eq_pagesB_seq items]
  | .group kvs => by simp [get_pagesA, get_pagesB, pagesA_eq_pagesB_grp kvs]
  | .leaf s => by simp [get_pagesA, get_pagesB]
  | .other => by simp [get_pagesA, get_pagesB]

/-- the two list loops agree -/
theorem pagesA_eq_pagesB_seq : (ns : List Nav) → get_pagesA_seq ns = get_pagesB_seq ns
  | [] => by simp [get_pagesA_seq, get_pagesB_seq]
  | n :: ns => by
    simp [get_pagesA_seq, get_pagesB_seq, pagesA_eq_pagesB n, pagesA_eq_pagesB_seq ns]

/-- the two dict loops agree: on a direct string value, Variant A's
recursive call lands in the same suffix test Variant B performs inline -/
theorem pagesA_eq_pagesB_grp :
    (kvs : List (String × Nav)) → get_pagesA_grp kvs = get_pagesB_grp kvs
  | [] => by simp [get_pagesA_grp, get_pagesB_grp]
  | (k, .leaf s) :: rest => by
    simp [get_pagesA_grp, get_pagesB_grp, get_pagesA, pagesA_eq_pagesB_grp rest]
  | (k, .seq items) :: rest => by
    simp [get_pagesA_grp, get_pagesB_grp, pagesA_eq_pagesB (.seq items),
      pagesA_eq_pagesB_grp rest]
  | (k, .group kvs2) :: rest => by
    simp [get_pagesA_grp, get_pagesB_grp, pagesA_eq_pagesB (.group kvs2),
      pagesA_eq_pagesB_grp rest]
  | (k, .other) :: rest => by
    simp [get_pagesA_grp, get_pagesB_grp, pagesA_eq_pagesB .other,
      pagesA_eq_pagesB_grp rest]

end

/-- C1: the Slice Selector's flatten (Variant A, uniform recursion into
group values) and the Status Reporter's flatten (Variant B, inline suffix
test on direct string group values) return the same ordered list of
page-path strings on every navigation node, malformed leaves included. -/
theorem variantA_eq_variantB : ∀ n : Nav, get_pagesA n = get_pagesB n :=
  pagesA_eq_pagesB

mutual

/-- Variant B's flatten is the `.md` filter of the pre-order leaf
traversal (shared helper) -/
theorem pagesB_eq_filter :
    (n : Nav) → get_pagesB n = (navLeaves n).filter (fun s => pyEndsWith s ".md")
  | .seq items => by simp [get_pagesB, navLeaves, pagesB_eq_filter_seq items]
  | .group kvs => by simp [get_pagesB, navLeaves, pagesB_eq_filter_grp kvs]
  | .leaf s => by
    simp only [get_pagesB, navLeaves, List.filter]
    cases pyEndsWith s ".md" <;> simp
  | .other => by simp [get_pagesB, navLeaves]

/-- list-loop case of the filter characterisation -/
theorem pagesB_eq_filter_seq :
    (ns : List Nav) → get_pagesB_seq ns = (navLeaves_seq ns).filter (fun s => pyEndsWith s ".md")
  | [] => by simp [get_pagesB_seq, navLeaves_seq]
  | n :: ns => by
    simp [get_pagesB_seq, navLeaves_seq, List.filter_append,
      pagesB_eq_filter n, pagesB_eq_filter_seq ns]

/-- dict-loop case of the filter characterisation -/
theorem pagesB_eq_filter_grp :
    (kvs : List (String × Nav)) →
      get_pagesB_grp kvs = (navLeaves_grp kvs).filter (fun s => pyEndsWith s ".md")
  | [] => by simp [get_pagesB_grp, navLeaves_grp]
  | (k, .leaf s) :: rest => by
    simp only [get_pagesB_grp, navLeaves_grp, navLeaves, List.filter_append,
      pagesB_eq_filter_grp rest, List.filter]
    cases pyEndsWith s ".md" <;> simp
  | (k, .seq items) :: rest => by
    simp [get_pagesB_grp, navLeaves_grp, navLeaves, List.filter_append,
      pagesB_eq_filter (.seq items), pagesB_eq_filter_grp rest]
  | (k, .group kvs2) :: rest => by
    simp [get_pagesB_grp, navLeaves_grp, navLeaves, List.filter_append,
      pagesB_eq_filter (.group kvs2), pagesB_eq_filter_grp rest]
  | (k, .other) :: rest => by
    simp [get_pagesB_grp, navLeaves_grp, navLeaves, List.filter_append,
      pagesB_eq_filter .other, pagesB_eq_filter_grp rest]

end

/-- C7: the flattened output is the pre-order, left-to-right traversal of
the declared structure (sequence elements in order, group values in key
iteration order, leaves in place), restricted to `.md` leaves; and
flattening the same input twice yields identical output. -/
theorem flatten_preorder_and_deterministic : ∀ n : Nav,
    get_pagesB n = (navLeaves n).filter (fun s => pyEndsWith s ".md")
    ∧ get_pagesB n = get_pagesB n :=
  fun n => ⟨pagesB_eq_filter n, rfl⟩

/-- C6: a leaf string of the tree appears in the flattened output (either
variant) iff it ends with `.md`; a malformed node (`other`) contributes
nothing to a sequence or group and raises no error. -/
theorem leaf_filter_invariant : ∀ (t : Nav) (s : String),
    (s ∈ navLeaves t → (s ∈ get_pagesB t ↔ pyEndsWith s ".md" = true))
    ∧ (s ∈ navLeaves t → (s ∈ get_pagesA t ↔ pyEndsWith s ".md" = true))
    ∧ (∀ rest, get_pagesB_seq (Nav.other :: rest) = get_pagesB_seq rest)
    ∧ (∀ k rest, get_pagesB_grp ((k, Nav.other) :: rest) = get_pagesB_grp rest) := by
  intro t s
  have hB : s ∈ navLeaves t → (s ∈ get_pagesB t ↔ pyEndsWith s ".md" = true) := by
    intro hs
    rw [pagesB_eq_filter t]
    simp [List.mem_filter, hs]
  refine ⟨hB, ?_, ?_, ?_⟩
  · rw [pagesA_eq_pagesB t]; exact hB
  · intro rest; simp [get_pagesB_seq, get_pagesB]
  · intro k rest; simp [get_pagesB_grp, get_pagesB]

/-- witness for C6 at a concrete tree and leaf -/
theorem leaf_filter_invariant_witness :
    ("a.md" ∈ navLeaves (Nav.seq [Nav.leaf "a.md", Nav.leaf "b.txt"]))
    ∧ ("a.md" ∈ get_pagesB (Nav.seq [Nav.leaf "a.md", Nav.leaf "b.txt"])
        ↔ pyEndsWith "a.md" ".md" = true) :=
  ⟨by simp [navLeaves, navLeaves_seq],
   (leaf_filter_invariant (Nav.seq [Nav.leaf "a.md", Nav.leaf "b.txt"]) "a.md").1
     (by simp [navLeaves, navLeaves_seq])⟩

set_option maxRecDepth 40000 in
/-- C2: for a page that exists and reads successfully, the verdict is
`(word_count > 100 AND (has_code OR has_structure)) OR word_count > 300`;
with the boundary cases: 100 plain words → false, 101 plain words →
false, 101 words plus one fenced-code marker → true, 301 plain words →
true, 300 plain words → false. -/
theorem classifier_formula :
    (∀ (fs : FileSys) (fp : String) (content : List Char),
      fs.pathExists fp = true → fs.readFile fp = Except.ok content →
      ((analyze_page fs fp).1 = true ↔
        ((100 < word_count content
            ∧ (has_code content = true ∨ has_structure content = true))
          ∨ 300 < word_count content)))
    ∧ (analyze_page (mkFS (mkWords 100)) "docs/p100.md").1 = false
    ∧ (analyze_page (mkFS (mkWords 101)) "docs/p101.md").1 = false
    ∧ (analyze_page (mkFS (mkWords 101 ++ " ```".toList)) "docs/c101.md").1 = true
    ∧ (analyze_page (mkFS (mkWords 301)) "docs/p301.md").1 = true
    ∧ (analyze_page (mkFS (mkWords 300)) "docs/p300.md").1 = false := by
  refine ⟨?_, by decide, by decide, by decide, by decide, by decide⟩
  intro fs fp content h1 h2
  simp [analyze_page, h1, h2, is_completed]

set_option maxRecDepth 40000 in
/-- witness for C2 at a concrete file system and text -/
theorem classifier_formula_witness :
    (mkFS (mkWords 301)).pathExists "docs/p301.md" = true
    ∧ (mkFS (mkWords 301)).readFile "docs/p301.md" = Except.ok (mkWords 301)
    ∧ ((analyze_page (mkFS (mkWords 301)) "docs/p301.md").1 = true ↔
        ((100 < word_count (mkWords 301)
            ∧ (has_code (mkWords 301) = true ∨ has_structure (mkWords 301) = true))
          ∨ 300 < word_count (mkWords 301))) :=
  ⟨rfl, rfl, classifier_formula.1 (mkFS (mkWords 301)) "docs/p301.md" (mkWords 301) rfl rfl⟩

/-- C3: `has_structure` holds iff at least 2 lines start — anchored at the
true line start, leading whitespace not stripped — with 2 to 4 `#`
characters followed by one space; a line with leading whitespace, a
level-1 header, or 5 `#` characters does not count. -/
theorem has_structure_characterisation :
    (∀ l, headerStart l = true ↔
      ∃ k, 2 ≤ k ∧ k ≤ 4 ∧ (List.replicate k '#' ++ [' ']).isPrefixOf l = true)
    ∧ (∀ content, has_structure content = true ↔
        2 ≤ ((splitLines content).filter headerStart).length)
    ∧ (∀ l, headerStart (' ' :: l) = false)
    ∧ (∀ rest, headerStart ('#' :: ' ' :: rest) = false)
    ∧ (∀ rest, headerStart (List.replicate 5 '#' ++ ' ' :: rest) = false) := by
  refine ⟨?_, ?_, fun l => rfl, fun rest => rfl, fun rest => rfl⟩
  · intro l
    constructor
    · intro h
      simp only [headerStart, Bool.or_eq_true] at h
      rcases h with (h | h) | h
      · exact ⟨2, by norm_num, by norm_num,
          by rw [show List.replicate 2 '#' ++ [' '] = "## ".toList by decide]; exact h⟩
      · exact ⟨3, by norm_num, by norm_num,
          by rw [show List.replicate 3 '#' ++ [' '] = "### ".toList by decide]; exact h⟩
      · exact ⟨4, by norm_num, by norm_num,
          by rw [show List.replicate 4 '#' ++ [' '] = "#### ".toList by decide]; exact h⟩
    · rintro ⟨k, h2, h4, hp⟩
      simp only [headerStart, Bool.or_eq_true]
      interval_cases k
      · exact Or.inl (Or.inl
          (by rw [show "## ".toList = List.replicate 2 '#' ++ [' '] by decide]; exact hp))
      · exact Or.inl (Or.inr
          (by rw [show "### ".toList = List.replicate 3 '#' ++ [' '] by decide]; exact hp))
      · exact Or.inr
          (by rw [show "#### ".toList = List.replicate 4 '#' ++ [' '] by decide]; exact hp)
  · intro c; simp [has_structure, header_count]

/-- C4: the classifier never propagates an exception: a missing file
yields `false` with no output, and a failed read is caught, prints a
diagnostic naming the path and the error text, and yields `false`. -/
theorem classifier_never_raises : ∀ (fs : FileSys) (fp : String),
    (fs.pathExists fp = false → analyze_page fs fp = (false, []))
    ∧ (∀ e, fs.pathExists fp = true → fs.readFile fp = Except.error e →
        analyze_page fs fp = (false, ["Error reading " ++ fp ++ ": " ++ e])) := by
  intro fs fp
  constructor
  · intro h; simp [analyze_page, h]
  · intro e h1 h2; simp [analyze_page, h1, h2]

/-- witness for C4: a missing file and a failing read, both concrete -/
theorem classifier_never_raises_witness :
    missingFS.pathExists "docs/a.md" = false
    ∧ analyze_page missingFS "docs/a.md" = (false, [])
    ∧ badReadFS.pathExists "docs/a.md" = true
    ∧ badReadFS.readFile "docs/a.md" = Except.error "boom"
    ∧ analyze_page badReadFS "docs/a.md" = (false, ["Error reading docs/a.md: boom"]) :=
  ⟨rfl, (classifier_never_raises missingFS "docs/a.md").1 rfl, rfl, rfl, by
    have h := (classifier_never_raises badReadFS "docs/a.md").2 "boom" rfl rfl
    rw [h]; decide⟩

/-- writing the lines for `range(a, a + n)` succeeds when the indices stay
in range, and emits exactly that slice of the page list (shared helper) -/
theorem emitLines_range' (pages : List String) :
    ∀ (n a : Nat), a + n ≤ pages.length →
      emitLines pages (List.range' a n) =
        some (((pages.drop a).take n).map (fun p => "docs/" ++ p ++ "\n")) := by
  intro n
  induction n with
  | zero => intro a _; simp [emitLines]
  | succ m ih =>
    intro a ha
    have hlt : a < pages.length := by omega
    rw [List.range'_succ]
    simp only [emitLines]
    rw [List.getElem?_eq_getElem hlt, ih (a + 1) (by omega)]
    rw [show pages.drop a = pages.get ⟨a, hlt⟩ :: pages.drop (a + 1) from
      List.drop_eq_getElem_cons hlt, List.take_succ_cons, List.map_cons]
    rfl

/-- the fractional bounds are monotone: `start ≤ end` (shared helper) -/
theorem sliceStart_le_sliceEnd (t : Nat) : sliceStart t ≤ sliceEnd t :=
  Nat.div_le_div_right (by omega)

/-- for a non-empty list the inclusive upper index is still in range
(shared helper) -/
theorem sliceEnd_lt (t : Nat) (ht : 1 ≤ t) : sliceEnd t < t :=
  (Nat.div_lt_iff_lt_mul (by norm_num)).mpr (by omega)

/-- C5: the slice selector computes `start = ⌊total·0.11⌋` and
`end = ⌊total·0.15⌋` and emits exactly the pages at indices
`start..end`, both ends included, as `docs/{path}` lines in flatten
order; for 100 pages that is exactly the 5 pages at indices 11–15. -/
theorem slice_selector_emits_inclusive_range : ∀ pages : List String,
    (sliceEnd pages.length < pages.length →
      find_pages_slice pages =
        some (((pages.drop (sliceStart pages.length)).take
            (sliceEnd pages.length + 1 - sliceStart pages.length)).map
          (fun p => "docs/" ++ p ++ "\n")))
    ∧ (pages.length = 100 →
        sliceStart pages.length = 11 ∧ sliceEnd pages.length = 15 ∧
        find_pages_slice pages =
          some (((pages.drop 11).take 5).map (fun p => "docs/" ++ p ++ "\n"))) := by
  intro pages
  have hgen : sliceEnd pages.length < pages.length →
      find_pages_slice pages =
        some (((pages.drop (sliceStart pages.length)).take
            (sliceEnd pages.length + 1 - sliceStart pages.length)).map
          (fun p => "docs/" ++ p ++ "\n")) := by
    intro hend
    have hse := sliceStart_le_sliceEnd pages.length
    exact emitLines_range' pages _ _ (by omega)
  refine ⟨hgen, ?_⟩
  intro h100
  have h11 : sliceStart pages.length = 11 := by rw [h100]; decide
  have h15 : sliceEnd pages.length = 15 := by rw [h100]; decide
  refine ⟨h11, h15, ?_⟩
  have := hgen (by rw [h15, h100]; norm_num)
  rwa [h11, h15] at this

/-- witness for C5 at a concrete 100-page list -/
theorem slice_selector_emits_inclusive_range_witness :
    (List.replicate 100 "p.md").length = 100
    ∧ find_pages_slice (List.replicate 100 "p.md") = some (List.replicate 5 "docs/p.md\n") := by
  refine ⟨by decide, ?_⟩
  have h := (slice_selector_emits_inclusive_range (List.replicate 100 "p.md")).2 (by decide)
  rw [h.2.2]
  decide

/-- C10: with fractions 0.11 and 0.15, any non-empty page list gives
`start ≤ end < total`, every loop index is in range and at least one
line is written; the empty list makes the loop read index 0 of an empty
list, an out-of-range access (the script crashes). -/
theorem slice_index_safety : ∀ pages : List String,
    (pages ≠ [] →
      sliceStart pages.length ≤ sliceEnd pages.length
      ∧ sliceEnd pages.length < pages.length
      ∧ ∃ out, find_pages_slice pages = some out
          ∧ out.length = sliceEnd pages.length + 1 - sliceStart pages.length
          ∧ 1 ≤ out.length)
    ∧ (pages = [] → find_pages_slice pages = none) := by
  intro pages
  constructor
  · intro hne
    have ht : 1 ≤ pages.length := List.length_pos.mpr hne
    have hse := sliceStart_le_sliceEnd pages.length
    have hend := sliceEnd_lt pages.length ht
    refine ⟨hse, hend, ?_⟩
    rw [show find_pages_slice pages =
        emitLines pages (List.range' (sliceStart pages.length)
          (sliceEnd pages.length + 1 - sliceStart pages.length)) from rfl]
    rw [emitLines_range' pages _ _ (by omega)]
    refine ⟨_, rfl, ?_, ?_⟩
    · simp only [List.length_map, List.length_take, List.length_drop]
      omega
    · simp only [List.length_map, List.length_take, List.length_drop]
      omega
  · intro h
    subst h
    rfl

/-- witness for C10 at a one-page list and the empty list -/
theorem slice_index_safety_witness :
    ((["a.md"] : List String) ≠ []
      ∧ (sliceStart (["a.md"] : List String).length ≤ sliceEnd (["a.md"] : List String).length
        ∧ sliceEnd (["a.md"] : List String).length < (["a.md"] : List String).length
        ∧ ∃ out, find_pages_slice ["a.md"] = some out
            ∧ out.length = sliceEnd (["a.md"] : List String).length + 1
                - sliceStart (["a.md"] : List String).length
            ∧ 1 ≤ out.length))
    ∧ find_pages_slice ([] : List String) = none :=
  ⟨⟨by decide, (slice_index_safety ["a.md"]).1 (by decide)⟩,
    (slice_index_safety []).2 rfl⟩

/-- shape of every record the status loop builds, for any starting index
(shared helper) -/
theorem build_status_spec (fs : FileSys) :
    ∀ (pages : List String) (i0 : Nat),
      (build_status fs i0 pages).length = pages.length
      ∧ ∀ k, k < pages.length →
          ∃ r, (build_status fs i0 pages)[k]? = some r
            ∧ r.id = i0 + k
            ∧ pages[k]? = some r.path
            ∧ r.completed = (analyze_page fs (joinDocs r.path)).1
            ∧ r.status = (if r.completed then "completed" else "pending") := by
  intro pages
  induction pages with
  | nil => exact fun i0 => ⟨rfl, fun k hk => absurd hk (by simp)⟩
  | cons p rest ih =>
    intro i0
    constructor
    · simpa [build_status] using (ih (i0 + 1)).1
    · intro k hk
      cases k with
      | zero =>
        refine ⟨{ id := i0, path := p,
                  completed := (analyze_page fs (joinDocs p)).1,
                  status := if (analyze_page fs (joinDocs p)).1 then "completed"
                    else "pending" }, ?_, by simp, by simp, rfl, rfl⟩
        simp [build_status]
      | succ k =>
        obtain ⟨r, h1, h2, h3, h4, h5⟩ := (ih (i0 + 1)).2 k (by simpa using hk)
        refine ⟨r, ?_, by omega, by simpa using h3, h4, h5⟩
        simpa [build_status] using h1

/-- C8: the report has exactly one record per flattened page; ids form
the contiguous range `0..N-1` in order, each record's path is the
corresponding relative path in flatten order, and `status` is
`"completed"` exactly when `completed` is true, and `"pending"`
otherwise. -/
theorem status_report_complete : ∀ (fs : FileSys) (pages : List String),
    (build_status fs 0 pages).length = pages.length
    ∧ ∀ k, k < pages.length →
        ∃ r, (build_status fs 0 pages)[k]? = some r
          ∧ r.id = k
          ∧ pages[k]? = some r.path
          ∧ (r.status = "completed" ↔ r.completed = true)
          ∧ (r.completed = false → r.status = "pending") := by
  intro fs pages
  obtain ⟨hlen, hrec⟩ := build_status_spec fs pages 0
  refine ⟨hlen, fun k hk => ?_⟩
  obtain ⟨r, h1, h2, h3, _, h5⟩ := hrec k hk
  refine ⟨r, h1, by omega, h3, ?_, ?_⟩
  · rw [h5]
    cases hc : r.completed
    · exact iff_of_false (by decide) (by decide)
    · exact iff_of_true rfl rfl
  · intro hc
    rw [h5, hc]
    rfl

/-- witness for C8 at a concrete file system and two-page list -/
theorem status_report_complete_witness :
    (1 : Nat) < (["a.md", "b.md"] : List String).length
    ∧ ∃ r, (build_status missingFS 0 ["a.md", "b.md"])[1]? = some r
        ∧ r.id = 1
        ∧ (["a.md", "b.md"] : List String)[1]? = some r.path
        ∧ (r.status = "completed" ↔ r.completed = true)
        ∧ (r.completed = false → r.status = "pending") :=
  ⟨by decide, (status_report_complete missingFS ["a.md", "b.md"]).2 1 (by decide)⟩

/-- C9: an unloadable configuration is caught, prints a failure line with
the error text and writes no output file; a loaded configuration always
produces a written report (per-page failures never abort the run). -/
theorem status_top_level_failure : ∀ (e : String) (fs : FileSys) (nav : Nav),
    statusMain (Except.error e) fs = (none, ["Failed to generate status: " ++ e])
    ∧ (statusMain (Except.ok nav) fs).1 = some (build_status fs 0 (get_pagesB nav)) :=
  fun _ _ _ => ⟨rfl, rfl⟩
